import Mathlib

/-!
Verification of the Notion file-URL rewriting and proxying shim.

The repository consists of four TypeScript files:
* `src/lib/rewrite-notion-pdf-urls.ts` — legacy rewriter (`pdf` blocks only),
* `src/unnamed/part_000` — generalized rewriter (`pdf`, `file`, `audio`, `video`),
* `src/unnamed/part_001` — `/api/notion-file` redirect handler,
* `src/unnamed/part_002` — `/assets-pdf` streaming proxy handler.

This file gives a shallow embedding of those modules.  JavaScript strings are
Lean `String`s, JS objects used as string-keyed maps are association lists in
insertion order, `undefined` is `Option.none`, thrown exceptions are
`Except.error`, and the asynchronous upstream collaborator (`notion.getPage`,
`node-fetch`) is an explicit environment record whose fields give the outcome
of each possible call.  Handlers additionally log which upstream calls they
make, so "no upstream call is made" is an equation on the log.
-/

/-! ## String primitives

The JS string operations used by the sources (`String.prototype.endsWith`,
template literals, `encodeURIComponent`) modelled over `List Char`.  We use
our own prefix test so that all proofs reduce by its equations. -/

/-- `charsIsPrefixOf p l` is true when the character list `p` is an initial
segment of `l` (JS `String.prototype.startsWith` on the underlying text). -/
def charsIsPrefixOf : List Char → List Char → Bool
  | [], _ => true
  | _ :: _, [] => false
  | a :: as, b :: bs => a == b && charsIsPrefixOf as bs

/-- JS `s.endsWith(p)`: `p` is a final segment of `s`. -/
def strEndsWith (s p : String) : Bool :=
  charsIsPrefixOf p.data.reverse s.data.reverse

/-! ## The WHATWG `new URL` hostname, modelled

Both classifiers call the platform's `new URL(url)` and read `.hostname`;
that parser is a platform built-in, not code of this repository.
`parseHostname` models it for the absolute `http(s)` URLs this code deals
with: an ASCII-case-insensitive `http://` or `https://` scheme, then the
host up to the first `/`, `?`, `#` or `:`, lowercased; the empty host, any
other scheme and any scheme-less string (in particular every relative path
such as `/assets-pdf/...`) fail to parse, as `new URL` throws on them.
Every claim below relates classifier outputs through this same model, so the
statements are insensitive to the parser details beyond these facts. -/
def parseHostname (s : String) : Option String :=
  let ls := s.data.map Char.toLower
  let rest : Option (List Char) :=
    if charsIsPrefixOf "https://".data ls then some (ls.drop 8)
    else if charsIsPrefixOf "http://".data ls then some (ls.drop 7)
    else none
  match rest with
  | none => none
  | some cs =>
    let host := cs.takeWhile (fun c => !(c == '/' || c == '?' || c == '#' || c == ':'))
    if host.isEmpty then none else some (String.mk host)

/-! ## The two URL classifiers -/

/-- `ALLOWED_HOSTS` from `src/unnamed/part_001` and `src/unnamed/part_002`
(the two files define the identical constant). -/
def ALLOWED_HOSTS : List String := ["amazonaws.com", "notion.so"]

/-- `isAllowedHost` from `src/unnamed/part_001` lines 8–17 and
`src/unnamed/part_002` lines 23–31 (the two files define the identical
function): parse the URL (catching the throw as `false`) and accept when the
hostname equals an allow-listed host or ends with `'.' + host`. -/
def isAllowedHost (rawUrl : String) : Bool :=
  match parseHostname rawUrl with
  | some hostname =>
    ALLOWED_HOSTS.any (fun host => hostname == host || strEndsWith hostname ("." ++ host))
  | none => false

/-- `isNotionHostedUrl` from `src/lib/rewrite-notion-pdf-urls.ts` lines 3–16
and `src/unnamed/part_000` lines 14–26 (identical in both): falsy input is
rejected up front, then the hostname must end with the bare suffix
`amazonaws.com`, equal `notion.so`, or end with `.notion.so`. -/
def isNotionHostedUrl (url : String) : Bool :=
  if url = "" then false
  else
    match parseHostname url with
    | some hostname =>
      strEndsWith hostname "amazonaws.com" || hostname == "notion.so" ||
        strEndsWith hostname ".notion.so"
    | none => false

/-- The spec's classifier contract, stated over a parsed hostname: the
hostname equals an allow-listed domain or is a subdomain of one (suffix match
on `'.' + domain`).  This is the rule the specification document states for
both classifiers. -/
def specAllowedHostname (hostname : String) : Bool :=
  ALLOWED_HOSTS.any (fun host => hostname == host || strEndsWith hostname ("." ++ host))

/-! ## `encodeURIComponent`

The rewriters build their local proxy paths with template literals around
`encodeURIComponent`.  ECMA-262 `encodeURIComponent` leaves the unreserved
characters `A–Z a–z 0–9 - _ . ! ~ * ' ( )` intact and percent-encodes every
UTF-8 byte of any other character as `%XX` with uppercase hex digits. -/

/-- The characters `encodeURIComponent` leaves unescaped. -/
def isUnreservedURIChar (c : Char) : Bool :=
  (c ≥ 'A' && c ≤ 'Z') || (c ≥ 'a' && c ≤ 'z') || (c ≥ '0' && c ≤ '9') ||
    c == '-' || c == '_' || c == '.' || c == '!' || c == '~' || c == '*' ||
    c == Char.ofNat 39 || c == '(' || c == ')'

/-- The UTF-8 bytes of a character, as natural numbers. -/
def utf8Bytes (c : Char) : List Nat :=
  let n := c.toNat
  if n < 0x80 then [n]
  else if n < 0x800 then [0xC0 + n / 0x40, 0x80 + n % 0x40]
  else if n < 0x10000 then
    [0xE0 + n / 0x1000, 0x80 + (n / 0x40) % 0x40, 0x80 + n % 0x40]
  else
    [0xF0 + n / 0x40000, 0x80 + (n / 0x1000) % 0x40, 0x80 + (n / 0x40) % 0x40,
      0x80 + n % 0x40]

/-- Uppercase hexadecimal digit for `n < 16`. -/
def hexDigit (n : Nat) : Char :=
  if n < 10 then Char.ofNat (48 + n) else Char.ofNat (55 + n)

/-- `%XX` escape of one byte. -/
def percentByte (n : Nat) : List Char :=
  ['%', hexDigit (n / 16), hexDigit (n % 16)]

/-- ECMA-262 `encodeURIComponent`. -/
def encodeURIComponent (s : String) : String :=
  String.mk (s.data.flatMap fun c =>
    if isUnreservedURIChar c then [c] else (utf8Bytes c).flatMap percentByte)

/-! ## The record-map data model

`ExtendedRecordMap` (from `notion-types`) as the rewriters use it:
`recordMap.block?.[blockId]?.value?.type` and `recordMap.signed_urls`.
JS objects used as maps become association lists in insertion order; each
`?.` hop becomes an `Option`.  A signed-URL value is normally a string, but
the legacy rewriter explicitly guards `typeof signedUrl !== 'string'`, so the
value type `SVal` keeps a constructor for non-string values (carrying an
opaque tag).  All other fields of the record map, shallow-copied unchanged by
the spread `{ ...recordMap, signed_urls: rewritten }`, are collapsed into the
opaque field `rest`. -/

/-- A value of the `signed_urls` map: a string, or some non-string value. -/
inductive SVal where
  | str (s : String)
  | nonstr (tag : Nat)
deriving DecidableEq

/-- The `.value` object of a block entry, restricted to the one field the
rewriters read (`type`, possibly absent). -/
structure BlockValue where
  type : Option String
deriving DecidableEq

/-- One entry of `recordMap.block`; its `value` field may be absent. -/
structure BlockEntry where
  value : Option BlockValue
deriving DecidableEq

/-- The record map as the rewriters see it.  `block` itself is optional
(`recordMap.block?.`), as is `signed_urls`. -/
structure ExtendedRecordMap where
  block : Option (List (String × BlockEntry))
  signed_urls : Option (List (String × SVal))
  rest : Nat
deriving DecidableEq

/-- `recordMap.block?.[blockId]?.value?.type`. -/
def blockTypeOf (recordMap : ExtendedRecordMap) (blockId : String) : Option String :=
  (((recordMap.block.bind fun bm => bm.lookup blockId).bind
    fun e => e.value).bind fun v => v.type)

/-! ## The two rewriters -/

/-- Body of the `for` loop of `rewriteNotionPdfUrls`
(`src/lib/rewrite-notion-pdf-urls.ts` lines 28–42), acting on one
`(blockId, signedUrl)` entry: `continue` on non-string values, rewrite to
the `/assets-pdf/...` local path when the block type is `pdf` and the URL is
Notion-hosted, otherwise keep the entry. -/
def rewritePdfEntry (recordMap : ExtendedRecordMap) (pageId : String) :
    String × SVal → Option (String × SVal)
  | (blockId, SVal.str signedUrl) =>
    if blockTypeOf recordMap blockId = some "pdf" ∧ isNotionHostedUrl signedUrl = true then
      some (blockId, SVal.str ("/assets-pdf/" ++ encodeURIComponent pageId ++ "/" ++
        encodeURIComponent blockId))
    else
      some (blockId, SVal.str signedUrl)
  | (_, SVal.nonstr _) => none

/-- `rewriteNotionPdfUrls` from `src/lib/rewrite-notion-pdf-urls.ts`
lines 18–49.  The guard `!recordMap?.signed_urls` returns the input
unchanged; otherwise the loop builds the fresh `rewritten` object (the
`filterMap`, dropping `continue`d entries) and the spread produces a shallow
copy with only `signed_urls` replaced. -/
def rewriteNotionPdfUrls (recordMap : ExtendedRecordMap) (pageId : String) :
    ExtendedRecordMap :=
  match recordMap.signed_urls with
  | none => recordMap
  | some entries =>
    { recordMap with signed_urls := some (entries.filterMap (rewritePdfEntry recordMap pageId)) }

/-- `FILE_BLOCK_TYPES` from `src/unnamed/part_000` line 8. -/
def FILE_BLOCK_TYPES : List String := ["pdf", "file", "audio", "video"]

/-- The condition `blockType && FILE_BLOCK_TYPES.has(blockType)` of
`src/unnamed/part_000`: the type must be present, truthy (a JS empty string
is falsy — redundant here since `""` is not in the set) and a member of the
set. -/
def isFileBlockType : Option String → Bool
  | some t => (t != "") && FILE_BLOCK_TYPES.contains t
  | none => false

/-- Body of the `for` loop of `rewriteNotionFileUrls`
(`src/unnamed/part_000` lines 50–70): `continue` on non-string values,
rewrite to the `/api/notion-file?...` proxy reference when the block type is
a file type and the URL is Notion-hosted, otherwise keep the entry. -/
def rewriteFileEntry (recordMap : ExtendedRecordMap) (pageId : String) :
    String × SVal → Option (String × SVal)
  | (blockId, SVal.str signedUrl) =>
    if isFileBlockType (blockTypeOf recordMap blockId) = true ∧
        isNotionHostedUrl signedUrl = true then
      some (blockId, SVal.str ("/api/notion-file?blockId=" ++ encodeURIComponent blockId ++
        "&pageId=" ++ encodeURIComponent pageId))
    else
      some (blockId, SVal.str signedUrl)
  | (_, SVal.nonstr _) => none

/-- `rewriteNotionFileUrls` from `src/unnamed/part_000` lines 40–74, the
generalized variant of `rewriteNotionPdfUrls`. -/
def rewriteNotionFileUrls (recordMap : ExtendedRecordMap) (pageId : String) :
    ExtendedRecordMap :=
  match recordMap.signed_urls with
  | none => recordMap
  | some entries =>
    { recordMap with signed_urls := some (entries.filterMap (rewriteFileEntry recordMap pageId)) }

/-! ## The HTTP handler model

`req.query` values in Next.js are `string | string[] | undefined`; `QVal`
models the present cases.  Both handlers guard
`if (!param || typeof param !== 'string')`, which rejects an absent value,
an array value, and (via JS falsiness) the empty string.  The upstream
collaborators are an environment: `getPage b` is the outcome of
`notion.getPage(pageId, { ..., signFileUrls: b })` for the request's page
(`Except.error` = the promise rejected), and `fetch u` the outcome of the
proxy's upstream `fetch(u, ...)`.  Each handler result carries `pageCalls`,
the list of `signFileUrls` flags of the `getPage` calls it made, in order;
the proxy result also carries `fetchCalls`, the upstream URLs it fetched. -/

/-- A present `req.query` entry: a string or an array of strings. -/
inductive QVal where
  | str (s : String)
  | arr (l : List String)
deriving DecidableEq

/-- The `!param || typeof param !== 'string'` validation: returns the
parameter exactly when it is a single non-empty string. -/
def queryStr : Option QVal → Option String
  | some (QVal.str s) => if s = "" then none else some s
  | _ => none

/-- The slice of an incoming request both handlers read. -/
structure Req where
  method : String
  blockId : Option QVal
  pageId : Option QVal
deriving DecidableEq

/-- A page record as the handlers read it: `recordMap?.signed_urls?.[blockId]`
(declared `string | undefined`) and the raw source URL
`recordMap?.block?.[blockId]?.value?.properties?.source?.[0]?.[0]`, collapsed
into a per-block optional string (an absent key models every absent hop of
the optional chain). -/
structure PageRecord where
  signed_urls : Option (List (String × String))
  source : List (String × String)
deriving DecidableEq

/-- `recordMap?.signed_urls?.[blockId]`. -/
def signedUrlOf (recordMap : PageRecord) (blockId : String) : Option String :=
  recordMap.signed_urls.bind fun m => m.lookup blockId

/-- The raw source URL chain, and `getRawSourceUrl` of `src/unnamed/part_002`
lines 33–36 (its `typeof rawUrl === 'string'` guard is definitionally
satisfied in this model, where the chain yields an optional string). -/
def getRawSourceUrl (recordMap : PageRecord) (blockId : String) : Option String :=
  recordMap.source.lookup blockId

/-- Outcomes of the upstream collaborators for the request's page. -/
structure NotionEnv where
  getPage : Bool → Except Unit PageRecord
  fetch : String → Except Unit Unit

/-- A response of the redirect handler: `res.status(c).json({ error })` or
`res.redirect(302, url)`; `cached` records whether the 55-minute
`Cache-Control` header was set before the redirect. -/
inductive HResp where
  | json (status : Nat) (error : String)
  | redirect (status : Nat) (url : String) (cached : Bool)
deriving DecidableEq

/-- Result of the redirect handler: the response sent plus the `signFileUrls`
flags of the `getPage` calls made. -/
structure HResult where
  resp : HResp
  pageCalls : List Bool
deriving DecidableEq

/-- The raw-URL fallback block of `src/unnamed/part_001`, duplicated verbatim
in its `try` arm (lines 78–89) and its `catch` arm (lines 104–117):
`if (!rawUrl)` (absent or empty) → 404, not allow-listed → 400, else a 302
redirect without the cache header. -/
def rawUrlFallback (recordMap : PageRecord) (blockId : String)
    (pageCalls : List Bool) : HResult :=
  match getRawSourceUrl recordMap blockId with
  | some rawUrl =>
    if rawUrl = "" then ⟨HResp.json 404 "File URL not found for block", pageCalls⟩
    else if isAllowedHost rawUrl then ⟨HResp.redirect 302 rawUrl false, pageCalls⟩
    else ⟨HResp.json 400 "Unexpected redirect target", pageCalls⟩
  | none => ⟨HResp.json 404 "File URL not found for block", pageCalls⟩

/-- `notionFileHandler` from `src/unnamed/part_001` lines 32–122: method and
parameter validation, a signed `getPage`, the fresh-URL redirect guarded by
`isAllowedHost` (with the 55-minute cache header), the raw-URL fallback when
no truthy fresh URL is present, and on a thrown signed fetch one retry with
`signFileUrls: false` whose own failure yields 502. -/
def notionFileHandler (req : Req) (env : NotionEnv) : HResult :=
  if req.method ≠ "GET" then ⟨HResp.json 405 "Method not allowed", []⟩
  else
    match queryStr req.blockId with
    | none => ⟨HResp.json 400 "Missing blockId parameter", []⟩
    | some blockId =>
      match queryStr req.pageId with
      | none => ⟨HResp.json 400 "Missing pageId parameter", []⟩
      | some _pageId =>
        match env.getPage true with
        | Except.ok recordMap =>
          match signedUrlOf recordMap blockId with
          | some freshUrl =>
            if freshUrl ≠ "" then
              if isAllowedHost freshUrl then
                ⟨HResp.redirect 302 freshUrl true, [true]⟩
              else ⟨HResp.json 400 "Unexpected redirect target", [true]⟩
            else rawUrlFallback recordMap blockId [true]
          | none => rawUrlFallback recordMap blockId [true]
        | Except.error _ =>
          match env.getPage false with
          | Except.ok recordMap => rawUrlFallback recordMap blockId [true, false]
          | Except.error _ => ⟨HResp.json 502 "Failed to fetch signed URL", [true, false]⟩

/-! ## The streaming proxy -/

/-- Why `resolvePdfUrl` rejected: the explicit
`throw new Error('File URL not found for block')`, or a rethrown upstream
failure of the unsigned `getPage`. -/
inductive ResolveErr where
  | notFound
  | fetchFailed
deriving DecidableEq

/-- `resolvePdfUrl` from `src/unnamed/part_002` lines 39–72, paired with the
`getPage` call log.  The `try` covers only the signed fetch; whether it
throws or merely yields neither a fresh signed URL (`typeof` string test, so
even `""` is returned) nor a truthy raw URL, control reaches the unsigned
fetch, whose missing raw URL raises the not-found error and whose own throw
propagates. -/
def resolvePdfUrl (env : NotionEnv) (blockId : String) :
    Except ResolveErr String × List Bool :=
  let unsignedStep : Except ResolveErr String × List Bool :=
    match env.getPage false with
    | Except.ok fallbackMap =>
      match getRawSourceUrl fallbackMap blockId with
      | some fallbackUrl =>
        if fallbackUrl = "" then (Except.error ResolveErr.notFound, [true, false])
        else (Except.ok fallbackUrl, [true, false])
      | none => (Except.error ResolveErr.notFound, [true, false])
    | Except.error _ => (Except.error ResolveErr.fetchFailed, [true, false])
  match env.getPage true with
  | Except.ok recordMap =>
    match signedUrlOf recordMap blockId with
    | some freshUrl => (Except.ok freshUrl, [true])
    | none =>
      match getRawSourceUrl recordMap blockId with
      | some fallbackUrl =>
        if fallbackUrl = "" then unsignedStep else (Except.ok fallbackUrl, [true])
      | none => unsignedStep
  | Except.error _ => unsignedStep

/-- A response of the streaming proxy: an error JSON, or `upstream url` —
the allow-check passed, the upstream fetch succeeded and its status, the
allow-listed response headers and (for GET) the piped body are forwarded. -/
inductive ProxyResp where
  | json (status : Nat) (error : String)
  | upstream (url : String)
deriving DecidableEq

/-- Result of the proxy handler: response, `getPage` call flags, and the
upstream URLs passed to `fetch`. -/
structure ProxyResult where
  resp : ProxyResp
  pageCalls : List Bool
  fetchCalls : List String
deriving DecidableEq

/-- `assetsPdfHandler` from `src/unnamed/part_002` lines 74–145: GET/HEAD
and parameter validation, `resolvePdfUrl`, the `isAllowedHost` check before
any upstream fetch, and the surrounding `try`/`catch` that turns every
resolution or fetch error into a 502. -/
def assetsPdfHandler (req : Req) (env : NotionEnv) : ProxyResult :=
  if req.method ≠ "GET" ∧ req.method ≠ "HEAD" then
    ⟨ProxyResp.json 405 "Method not allowed", [], []⟩
  else
    match queryStr req.blockId with
    | none => ⟨ProxyResp.json 400 "Missing blockId parameter", [], []⟩
    | some blockId =>
      match queryStr req.pageId with
      | none => ⟨ProxyResp.json 400 "Missing pageId parameter", [], []⟩
      | some _pageId =>
        match resolvePdfUrl env blockId with
        | (Except.ok upstreamUrl, pageCalls) =>
          if isAllowedHost upstreamUrl then
            match env.fetch upstreamUrl with
            | Except.ok _ => ⟨ProxyResp.upstream upstreamUrl, pageCalls, [upstreamUrl]⟩
            | Except.error _ =>
              ⟨ProxyResp.json 502 "Failed to proxy PDF", pageCalls, [upstreamUrl]⟩
          else ⟨ProxyResp.json 400 "Unexpected file host", pageCalls, []⟩
        | (Except.error _, pageCalls) =>
          ⟨ProxyResp.json 502 "Failed to proxy PDF", pageCalls, []⟩

/-! ## Shared lemmas about prefix/suffix tests -/

theorem charsIsPrefixOf_refl (l : List Char) : charsIsPrefixOf l l = true := by
  induction l with
  | nil => rfl
  | cons a as ih => simp [charsIsPrefixOf, ih]

theorem charsIsPrefixOf_append_left (p q l : List Char)
    (h : charsIsPrefixOf (p ++ q) l = true) : charsIsPrefixOf p l = true := by
  induction p generalizing l with
  | nil => simp [charsIsPrefixOf]
  | cons a as ih =>
    cases l with
    | nil => simp [charsIsPrefixOf] at h
    | cons b bs =>
      simp only [List.cons_append, charsIsPrefixOf, Bool.and_eq_true] at h ⊢
      exact ⟨h.1, ih bs h.2⟩

theorem strEndsWith_self (s : String) : strEndsWith s s = true :=
  charsIsPrefixOf_refl s.data.reverse

/-- A `'.' + d` suffix is in particular a `d` suffix. -/
theorem strEndsWith_of_dot (h d : String)
    (hd : strEndsWith h ("." ++ d) = true) : strEndsWith h d = true := by
  unfold strEndsWith at hd ⊢
  have hdata : ("." ++ d).data = '.' :: d.data := rfl
  rw [hdata, List.reverse_cons] at hd
  exact charsIsPrefixOf_append_left _ _ _ hd

theorem parseHostname_empty : parseHostname "" = none := rfl

theorem ne_empty_of_parseHostname {s h : String}
    (hp : parseHostname s = some h) : s ≠ "" := by
  intro he
  rw [he, parseHostname_empty] at hp
  exact Option.noConfusion hp

/-- `isNotionHostedUrl` unfolded at a string that parses. -/
theorem isNotionHostedUrl_of_parse {s h : String}
    (hp : parseHostname s = some h) :
    isNotionHostedUrl s =
      (strEndsWith h "amazonaws.com" || h == "notion.so" ||
        strEndsWith h ".notion.so") := by
  unfold isNotionHostedUrl
  rw [if_neg (ne_empty_of_parseHostname hp), hp]

/-- `isAllowedHost` unfolded at a string that parses. -/
theorem isAllowedHost_of_parse {s h : String}
    (hp : parseHostname s = some h) :
    isAllowedHost s =
      ((h == "amazonaws.com" || strEndsWith h ".amazonaws.com") ||
        (h == "notion.so" || strEndsWith h ".notion.so")) := by
  unfold isAllowedHost
  rw [hp]
  simp [ALLOWED_HOSTS]

/-- C1 counterexample: `https://evilamazonaws.com/x` parses with hostname
`evilamazonaws.com`, which is neither an allow-listed domain nor a subdomain
of one, yet `isNotionHostedUrl` accepts it (bare `endsWith('amazonaws.com')`
with no dot), so the claimed iff fails for the rewriters' classifier. -/
theorem c1_counterexample :
    isNotionHostedUrl "https://evilamazonaws.com/x" = true ∧
    parseHostname "https://evilamazonaws.com/x" = some "evilamazonaws.com" ∧
    specAllowedHostname "evilamazonaws.com" = false := by
  refine ⟨by decide, by decide, by decide⟩

/-- C1 (amended): `isAllowedHost` returns true exactly on strings that parse
with an allow-listed hostname or a subdomain of one, and `isNotionHostedUrl`
returns true exactly on strings that parse with a hostname that ends in the
bare suffix `amazonaws.com` (dot not required), equals `notion.so`, or is a
subdomain of `notion.so`; both return false on every unparsable string and
never throw. -/
theorem c1_classifier_contract :
    (∀ s, isAllowedHost s = true ↔
      ∃ h, parseHostname s = some h ∧ specAllowedHostname h = true) ∧
    (∀ s, isNotionHostedUrl s = true ↔
      ∃ h, parseHostname s = some h ∧
        (strEndsWith h "amazonaws.com" || h == "notion.so" ||
          strEndsWith h ".notion.so") = true) := by
  constructor
  · intro s
    unfold isAllowedHost specAllowedHostname
    cases hp : parseHostname s with
    | none => simp
    | some h => simp
  · intro s
    cases hp : parseHostname s with
    | none =>
      unfold isNotionHostedUrl
      rw [hp]
      simp [hp]
    | some h =>
      rw [isNotionHostedUrl_of_parse hp]
      simp [hp]

/-- C9 counterexample: the two classifiers disagree at
`https://evilamazonaws.com/`, which `isNotionHostedUrl` accepts and
`isAllowedHost` rejects. -/
theorem c9_counterexample :
    isNotionHostedUrl "https://evilamazonaws.com/" = true ∧
    isAllowedHost "https://evilamazonaws.com/" = false := by
  refine ⟨by decide, by decide⟩

/-- C9 (amended): the handlers' `isAllowedHost` is strictly stronger than the
rewriters' `isNotionHostedUrl` — whatever it accepts the other accepts — and
the two agree on every unparsable string and on every URL whose hostname, if
it ends in `amazonaws.com` at all, does so as the exact domain or as a true
`.amazonaws.com` subdomain; they are not equivalent on all strings. -/
theorem c9_classifier_refinement :
    (∀ s, isAllowedHost s = true → isNotionHostedUrl s = true) ∧
    (∀ s, parseHostname s = none → isNotionHostedUrl s = isAllowedHost s) ∧
    (∀ s h, parseHostname s = some h →
      (strEndsWith h "amazonaws.com" = true →
        h = "amazonaws.com" ∨ strEndsWith h ".amazonaws.com" = true) →
      isNotionHostedUrl s = isAllowedHost s) := by
  refine ⟨?_, ?_, ?_⟩
  · intro s hs
    cases hp : parseHostname s with
    | none => rw [isAllowedHost, hp] at hs; exact absurd hs (by simp)
    | some h =>
      rw [isAllowedHost_of_parse hp] at hs
      rw [isNotionHostedUrl_of_parse hp]
      simp only [Bool.or_eq_true, beq_iff_eq] at hs ⊢
      rcases hs with (heq | hdot) | hn
      · subst heq
        exact Or.inl (Or.inl (strEndsWith_self _))
      · exact Or.inl (Or.inl (strEndsWith_of_dot _ _ hdot))
      · rcases hn with hb | hc
        · exact Or.inl (Or.inr hb)
        · exact Or.inr hc
  · intro s hp
    unfold isNotionHostedUrl isAllowedHost
    rw [hp]
    simp
  · intro s h hp haw
    rw [isNotionHostedUrl_of_parse hp, isAllowedHost_of_parse hp]
    cases hsuf : strEndsWith h "amazonaws.com" with
    | true =>
      rcases haw hsuf with heq | hdot
      · subst heq; simp
      · simp [hdot]
    | false =>
      have heq : (h == "amazonaws.com") = false := by
        cases hb : h == "amazonaws.com" with
        | true =>
          have : h = "amazonaws.com" := by simpa using hb
          subst this
          rw [strEndsWith_self] at hsuf
          exact absurd hsuf (by simp)
        | false => rfl
      have hdot : strEndsWith h ".amazonaws.com" = false := by
        cases hb : strEndsWith h ".amazonaws.com" with
        | true =>
          rw [strEndsWith_of_dot _ _ hb] at hsuf
          exact absurd hsuf (by simp)
        | false => rfl
      simp [heq, hdot]

/-- Witness for C9's refinement direction at a concrete allowed URL. -/
theorem c9_classifier_refinement_witness :
    isAllowedHost "https://files.notion.so/f.pdf" = true ∧
    isNotionHostedUrl "https://files.notion.so/f.pdf" = true :=
  ⟨by decide, c9_classifier_refinement.1 "https://files.notion.so/f.pdf" (by decide)⟩

/-! ## Rewriter theorems -/

/-- C4: in both rewriters, an entry whose block type is in the target set and
whose signed URL passes the classifier is mapped to exactly the documented
local-proxy path with both identifiers percent-encoded. -/
theorem c4_rewritten_entry_shape :
    ∀ (m : ExtendedRecordMap) (pageId : String) (entries : List (String × SVal))
      (blockId url : String),
      m.signed_urls = some entries →
      (blockId, SVal.str url) ∈ entries →
      isNotionHostedUrl url = true →
      ((blockTypeOf m blockId = some "pdf" →
        (blockId, SVal.str ("/assets-pdf/" ++ encodeURIComponent pageId ++ "/" ++
          encodeURIComponent blockId)) ∈
          ((rewriteNotionPdfUrls m pageId).signed_urls.getD [])) ∧
       (isFileBlockType (blockTypeOf m blockId) = true →
        (blockId, SVal.str ("/api/notion-file?blockId=" ++ encodeURIComponent blockId ++
          "&pageId=" ++ encodeURIComponent pageId)) ∈
          ((rewriteNotionFileUrls m pageId).signed_urls.getD []))) := by
  intro m pageId entries blockId url hs hmem hurl
  constructor
  · intro htype
    unfold rewriteNotionPdfUrls
    rw [hs]
    simp only [Option.getD_some]
    refine List.mem_filterMap.mpr ⟨(blockId, SVal.str url), hmem, ?_⟩
    simp [rewritePdfEntry, htype, hurl]
  · intro htype
    unfold rewriteNotionFileUrls
    rw [hs]
    simp only [Option.getD_some]
    refine List.mem_filterMap.mpr ⟨(blockId, SVal.str url), hmem, ?_⟩
    simp [rewriteFileEntry, htype, hurl]

/-- A record map holding one `pdf` block whose signed URL is S3-hosted. -/
def sampleMapC4 : ExtendedRecordMap :=
  ⟨some [("b1", ⟨some ⟨some "pdf"⟩⟩)],
   some [("b1", SVal.str "https://s3.amazonaws.com/x")], 0⟩

/-- Witness for C4: the legacy rewriter maps the `pdf` block with signed URL
`https://s3.amazonaws.com/x` to `/assets-pdf/p1/b1`. -/
theorem c4_rewritten_entry_shape_witness :
    blockTypeOf sampleMapC4 "b1" = some "pdf" ∧
    isNotionHostedUrl "https://s3.amazonaws.com/x" = true ∧
    ("b1", SVal.str "/assets-pdf/p1/b1") ∈
      ((rewriteNotionPdfUrls sampleMapC4 "p1").signed_urls.getD []) := by
  refine ⟨by decide, by decide, ?_⟩
  have h := (c4_rewritten_entry_shape sampleMapC4 "p1"
      [("b1", SVal.str "https://s3.amazonaws.com/x")] "b1" "https://s3.amazonaws.com/x"
      rfl (by decide) (by decide)).1 (by decide)
  have e : "/assets-pdf/" ++ encodeURIComponent "p1" ++ "/" ++ encodeURIComponent "b1" =
      "/assets-pdf/p1/b1" := by decide
  rw [e] at h
  exact h

/-- A record map holding one `image` block whose signed-URL value is not a
string. -/
def sampleMapC5 : ExtendedRecordMap :=
  ⟨some [("b1", ⟨some ⟨some "image"⟩⟩)], some [("b1", SVal.nonstr 0)], 0⟩

/-- C5 counterexample: an entry whose value is not a string is not returned
byte-identical — both rewriters drop it (`continue` without copying), leaving
an empty output map. -/
theorem c5_counterexample :
    (rewriteNotionPdfUrls sampleMapC5 "p1").signed_urls = some [] ∧
    (rewriteNotionFileUrls sampleMapC5 "p1").signed_urls = some [] := by
  refine ⟨by decide, by decide⟩

/-- C5 (amended): string-valued entries whose block type does not match (or
whose URL fails the classifier) are passed through byte-identical by both
rewriters, while entries whose value is not a string are dropped — no
non-string entry occurs in the output signed-URL mapping. -/
theorem c5_passthrough_and_drop :
    ∀ (m : ExtendedRecordMap) (pageId : String) (entries : List (String × SVal)),
      m.signed_urls = some entries →
      ((∀ blockId url, (blockId, SVal.str url) ∈ entries →
        ¬(blockTypeOf m blockId = some "pdf" ∧ isNotionHostedUrl url = true) →
        (blockId, SVal.str url) ∈ ((rewriteNotionPdfUrls m pageId).signed_urls.getD [])) ∧
       (∀ blockId url, (blockId, SVal.str url) ∈ entries →
        ¬(isFileBlockType (blockTypeOf m blockId) = true ∧ isNotionHostedUrl url = true) →
        (blockId, SVal.str url) ∈ ((rewriteNotionFileUrls m pageId).signed_urls.getD [])) ∧
       (∀ blockId tag,
        (blockId, SVal.nonstr tag) ∉ ((rewriteNotionPdfUrls m pageId).signed_urls.getD [])) ∧
       (∀ blockId tag,
        (blockId, SVal.nonstr tag) ∉ ((rewriteNotionFileUrls m pageId).signed_urls.getD []))) := by
  intro m pageId entries hs
  refine ⟨?_, ?_, ?_, ?_⟩
  · intro blockId url hmem hcond
    unfold rewriteNotionPdfUrls
    rw [hs]
    simp only [Option.getD_some]
    refine List.mem_filterMap.mpr ⟨(blockId, SVal.str url), hmem, ?_⟩
    simp [rewritePdfEntry, hcond]
  · intro blockId url hmem hcond
    unfold rewriteNotionFileUrls
    rw [hs]
    simp only [Option.getD_some]
    refine List.mem_filterMap.mpr ⟨(blockId, SVal.str url), hmem, ?_⟩
    simp [rewriteFileEntry, hcond]
  · intro blockId tag hmem
    unfold rewriteNotionPdfUrls at hmem
    rw [hs] at hmem
    simp only [Option.getD_some] at hmem
    rcases List.mem_filterMap.mp hmem with ⟨⟨b, v⟩, _, hfv⟩
    cases v with
    | str u =>
      by_cases hcond : blockTypeOf m b = some "pdf" ∧ isNotionHostedUrl u = true
      · simp [rewritePdfEntry, hcond] at hfv
      · simp [rewritePdfEntry, hcond] at hfv
    | nonstr t => simp [rewritePdfEntry] at hfv
  · intro blockId tag hmem
    unfold rewriteNotionFileUrls at hmem
    rw [hs] at hmem
    simp only [Option.getD_some] at hmem
    rcases List.mem_filterMap.mp hmem with ⟨⟨b, v⟩, _, hfv⟩
    cases v with
    | str u =>
      by_cases hcond : isFileBlockType (blockTypeOf m b) = true ∧ isNotionHostedUrl u = true
      · simp [rewriteFileEntry, hcond] at hfv
      · simp [rewriteFileEntry, hcond] at hfv
    | nonstr t => simp [rewriteFileEntry] at hfv

/-- Witness for C5's amended pass-through at a concrete image block. -/
theorem c5_passthrough_and_drop_witness :
    (⟨some [("b1", ⟨some ⟨some "image"⟩⟩)],
      some [("b1", SVal.str "https://s3.amazonaws.com/i.png")], 0⟩ :
        ExtendedRecordMap).signed_urls =
      some [("b1", SVal.str "https://s3.amazonaws.com/i.png")] ∧
    ("b1", SVal.str "https://s3.amazonaws.com/i.png") ∈
      ((rewriteNotionPdfUrls
        ⟨some [("b1", ⟨some ⟨some "image"⟩⟩)],
          some [("b1", SVal.str "https://s3.amazonaws.com/i.png")], 0⟩ "p1").signed_urls.getD [])
    := by
  refine ⟨rfl, ?_⟩
  exact (c5_passthrough_and_drop _ "p1" _ rfl).1 "b1" "https://s3.amazonaws.com/i.png"
    (by decide) (by decide)

/-- C6: in this pure embedding, freedom from mutation is the frame property:
both rewriters return a record map sharing every field of the input except
`signed_urls` (the JS code builds a fresh `rewritten` object and a fresh
spread copy, leaving the argument untouched), and when the input has no
signed-URL mapping they return the input itself. -/
theorem c6_rewriters_frame :
    ∀ (m : ExtendedRecordMap) (pageId : String),
      (rewriteNotionPdfUrls m pageId).block = m.block ∧
      (rewriteNotionPdfUrls m pageId).rest = m.rest ∧
      (rewriteNotionFileUrls m pageId).block = m.block ∧
      (rewriteNotionFileUrls m pageId).rest = m.rest ∧
      (m.signed_urls = none →
        rewriteNotionPdfUrls m pageId = m ∧ rewriteNotionFileUrls m pageId = m) := by
  intro m pageId
  cases hs : m.signed_urls with
  | none =>
    unfold rewriteNotionPdfUrls rewriteNotionFileUrls
    rw [hs]
    simp
  | some entries =>
    unfold rewriteNotionPdfUrls rewriteNotionFileUrls
    rw [hs]
    simp

/-- Witness for C6 at a record map with no signed-URL mapping. -/
theorem c6_rewriters_frame_witness :
    (⟨none, none, 7⟩ : ExtendedRecordMap).signed_urls = none ∧
    rewriteNotionPdfUrls ⟨none, none, 7⟩ "p" = ⟨none, none, 7⟩ ∧
    rewriteNotionFileUrls ⟨none, none, 7⟩ "p" = ⟨none, none, 7⟩ :=
  ⟨rfl, ((c6_rewriters_frame ⟨none, none, 7⟩ "p").2.2.2.2 rfl).1,
    ((c6_rewriters_frame ⟨none, none, 7⟩ "p").2.2.2.2 rfl).2⟩

/-! ## Idempotence of the rewriters

A rewritten entry is a relative local path; it starts with `/`, so it cannot
carry an `http(s)` scheme, fails URL parsing, is rejected by the classifier
and is passed through unchanged by a second rewrite. -/

theorem charsIsPrefixOf_https_slash (cs : List Char) :
    charsIsPrefixOf "https://".data ('/' :: cs) = false := rfl

theorem charsIsPrefixOf_http_slash (cs : List Char) :
    charsIsPrefixOf "http://".data ('/' :: cs) = false := rfl

theorem parseHostname_slash (s : String) (cs : List Char) (hd : s.data = '/' :: cs) :
    parseHostname s = none := by
  unfold parseHostname
  rw [hd]
  simp only [List.map_cons]
  have h1 : Char.toLower '/' = '/' := rfl
  rw [h1, charsIsPrefixOf_https_slash, charsIsPrefixOf_http_slash]
  simp

theorem isNotionHostedUrl_slashPath (s : String) (cs : List Char)
    (hd : s.data = '/' :: cs) : isNotionHostedUrl s = false := by
  unfold isNotionHostedUrl
  rw [parseHostname_slash s cs hd]
  simp

/-- The legacy rewriter's local paths are never classified as hosted. -/
theorem isNotionHostedUrl_assetsPath (p b : String) :
    isNotionHostedUrl ("/assets-pdf/" ++ p ++ "/" ++ b) = false :=
  isNotionHostedUrl_slashPath _ (("assets-pdf/" ++ p ++ "/" ++ b).data) rfl

/-- The generalized rewriter's proxy references are never classified as
hosted. -/
theorem isNotionHostedUrl_apiPath (b p : String) :
    isNotionHostedUrl ("/api/notion-file?blockId=" ++ b ++ "&pageId=" ++ p) = false :=
  isNotionHostedUrl_slashPath _
    (("api/notion-file?blockId=" ++ b ++ "&pageId=" ++ p).data) rfl

theorem filterMap_id_of_mem {α : Type} (l : List α) (f : α → Option α)
    (h : ∀ a ∈ l, f a = some a) : l.filterMap f = l := by
  induction l with
  | nil => rfl
  | cons a as ih =>
    simp only [List.filterMap_cons, h a (List.mem_cons_self a as)]
    rw [ih fun x hx => h x (List.mem_cons_of_mem _ hx)]

/-- Unfolding of the legacy rewriter when a signed-URL mapping is present. -/
theorem rewriteNotionPdfUrls_some (m : ExtendedRecordMap) (pageId : String)
    (entries : List (String × SVal)) (hs : m.signed_urls = some entries) :
    rewriteNotionPdfUrls m pageId =
      { m with signed_urls := some (entries.filterMap (rewritePdfEntry m pageId)) } := by
  unfold rewriteNotionPdfUrls
  rw [hs]

/-- Unfolding of the generalized rewriter when a signed-URL mapping is
present. -/
theorem rewriteNotionFileUrls_some (m : ExtendedRecordMap) (pageId : String)
    (entries : List (String × SVal)) (hs : m.signed_urls = some entries) :
    rewriteNotionFileUrls m pageId =
      { m with signed_urls := some (entries.filterMap (rewriteFileEntry m pageId)) } := by
  unfold rewriteNotionFileUrls
  rw [hs]

/-- Replacing `signed_urls` does not change what `blockTypeOf` sees, so the
per-entry rewrite of the once-rewritten map agrees with that of the original
map. -/
theorem rewritePdfEntry_update (m : ExtendedRecordMap) (pageId : String)
    (su : Option (List (String × SVal))) :
    rewritePdfEntry { m with signed_urls := su } pageId = rewritePdfEntry m pageId := by
  funext x
  rcases x with ⟨b, v⟩
  cases v with
  | str u => rfl
  | nonstr t => rfl

theorem rewriteFileEntry_update (m : ExtendedRecordMap) (pageId : String)
    (su : Option (List (String × SVal))) :
    rewriteFileEntry { m with signed_urls := su } pageId = rewriteFileEntry m pageId := by
  funext x
  rcases x with ⟨b, v⟩
  cases v with
  | str u => rfl
  | nonstr t => rfl

/-- Every output entry of the legacy per-entry rewrite is a fixed point of
that rewrite. -/
theorem rewritePdfEntry_fixed (m : ExtendedRecordMap) (pageId : String)
    (entries : List (String × SVal)) (e : String × SVal)
    (he : e ∈ entries.filterMap (rewritePdfEntry m pageId)) :
    rewritePdfEntry m pageId e = some e := by
  rcases List.mem_filterMap.mp he with ⟨⟨b, v⟩, _, hfv⟩
  cases v with
  | str u =>
    by_cases hcond : blockTypeOf m b = some "pdf" ∧ isNotionHostedUrl u = true
    · simp only [rewritePdfEntry, if_pos hcond, Option.some_inj] at hfv
      subst hfv
      simp [rewritePdfEntry, isNotionHostedUrl_assetsPath]
    · simp only [rewritePdfEntry, if_neg hcond, Option.some_inj] at hfv
      subst hfv
      simp [rewritePdfEntry, hcond]
  | nonstr t => simp [rewritePdfEntry] at hfv

theorem rewriteFileEntry_fixed (m : ExtendedRecordMap) (pageId : String)
    (entries : List (String × SVal)) (e : String × SVal)
    (he : e ∈ entries.filterMap (rewriteFileEntry m pageId)) :
    rewriteFileEntry m pageId e = some e := by
  rcases List.mem_filterMap.mp he with ⟨⟨b, v⟩, _, hfv⟩
  cases v with
  | str u =>
    by_cases hcond : isFileBlockType (blockTypeOf m b) = true ∧ isNotionHostedUrl u = true
    · simp only [rewriteFileEntry, if_pos hcond, Option.some_inj] at hfv
      subst hfv
      simp [rewriteFileEntry, isNotionHostedUrl_apiPath]
    · simp only [rewriteFileEntry, if_neg hcond, Option.some_inj] at hfv
      subst hfv
      simp [rewriteFileEntry, hcond]
  | nonstr t => simp [rewriteFileEntry] at hfv

/-- C10: both rewriters are idempotent — applied to their own output with the
same page identifier they return that output unchanged, because every
rewritten entry is a relative local path that fails URL parsing and is
therefore passed through by the second application. -/
theorem c10_rewriters_idempotent :
    ∀ (m : ExtendedRecordMap) (pageId : String),
      rewriteNotionPdfUrls (rewriteNotionPdfUrls m pageId) pageId =
        rewriteNotionPdfUrls m pageId ∧
      rewriteNotionFileUrls (rewriteNotionFileUrls m pageId) pageId =
        rewriteNotionFileUrls m pageId := by
  intro m pageId
  constructor
  · cases hs : m.signed_urls with
    | none =>
      have h1 : rewriteNotionPdfUrls m pageId = m := by
        unfold rewriteNotionPdfUrls
        rw [hs]
      rw [h1]
      exact h1
    | some entries =>
      rw [rewriteNotionPdfUrls_some m pageId entries hs,
        rewriteNotionPdfUrls_some _ pageId (entries.filterMap (rewritePdfEntry m pageId)) rfl]
      simp only [ExtendedRecordMap.mk.injEq, Option.some_inj]
      refine ⟨trivial, ?_, trivial⟩
      rw [rewritePdfEntry_update m pageId
        (some (entries.filterMap (rewritePdfEntry m pageId)))]
      exact filterMap_id_of_mem _ _ (fun e he => rewritePdfEntry_fixed m pageId entries e he)
  · cases hs : m.signed_urls with
    | none =>
      have h1 : rewriteNotionFileUrls m pageId = m := by
        unfold rewriteNotionFileUrls
        rw [hs]
      rw [h1]
      exact h1
    | some entries =>
      rw [rewriteNotionFileUrls_some m pageId entries hs,
        rewriteNotionFileUrls_some _ pageId (entries.filterMap (rewriteFileEntry m pageId)) rfl]
      simp only [ExtendedRecordMap.mk.injEq, Option.some_inj]
      refine ⟨trivial, ?_, trivial⟩
      rw [rewriteFileEntry_update m pageId
        (some (entries.filterMap (rewriteFileEntry m pageId)))]
      exact filterMap_id_of_mem _ _ (fun e he => rewriteFileEntry_fixed m pageId entries e he)

/-! ## Handler theorems -/

/-- C8: the redirect handler answers 405 to every non-GET request and 400 to
a GET whose `blockId` or `pageId` is missing or not a single (non-empty)
string; in every such case its `getPage` call log is empty, i.e. no upstream
call is made. -/
theorem c8_redirect_validation :
    ∀ (req : Req) (env : NotionEnv),
      (req.method ≠ "GET" →
        notionFileHandler req env = ⟨HResp.json 405 "Method not allowed", []⟩) ∧
      (req.method = "GET" → queryStr req.blockId = none →
        notionFileHandler req env = ⟨HResp.json 400 "Missing blockId parameter", []⟩) ∧
      (req.method = "GET" → queryStr req.blockId ≠ none → queryStr req.pageId = none →
        notionFileHandler req env = ⟨HResp.json 400 "Missing pageId parameter", []⟩) := by
  intro req env
  refine ⟨?_, ?_, ?_⟩
  · intro hm
    simp [notionFileHandler, hm]
  · intro hm hb
    simp [notionFileHandler, hm, hb]
  · intro hm hb hp
    rcases Option.ne_none_iff_exists.mp hb with ⟨b, hqb⟩
    simp [notionFileHandler, hm, ← hqb, hp]

/-- An environment whose upstream calls all fail. -/
def envStub : NotionEnv :=
  ⟨fun _ => Except.error (), fun _ => Except.error ()⟩

/-- Witness for C8: a POST request gets 405, and a GET whose `pageId` is an
array gets 400, both with no upstream call. -/
theorem c8_redirect_validation_witness :
    ("POST" : String) ≠ "GET" ∧
    notionFileHandler ⟨"POST", some (QVal.str "b"), some (QVal.str "p")⟩ envStub =
      ⟨HResp.json 405 "Method not allowed", []⟩ ∧
    queryStr (some (QVal.arr ["p"])) = none ∧
    notionFileHandler ⟨"GET", some (QVal.str "b"), some (QVal.arr ["p"])⟩ envStub =
      ⟨HResp.json 400 "Missing pageId parameter", []⟩ :=
  ⟨by decide,
   (c8_redirect_validation ⟨"POST", some (QVal.str "b"), some (QVal.str "p")⟩ envStub).1
     (by decide),
   rfl,
   (c8_redirect_validation ⟨"GET", some (QVal.str "b"), some (QVal.arr ["p"])⟩ envStub).2.2
     rfl (by decide) rfl⟩

/-- C3: when the signed `getPage` throws, the redirect handler retries
exactly once with signing disabled (call log `[true, false]`): a truthy raw
source URL on an allowed host yields a 302 redirect to it, an absent (or
empty) raw URL yields 404, and a failing retry yields 502.  The handler is a
total function, so no exception escapes it. -/
theorem c3_signed_fetch_throw_fallback :
    ∀ (req : Req) (env : NotionEnv) (blockId pageId : String),
      req.method = "GET" →
      queryStr req.blockId = some blockId →
      queryStr req.pageId = some pageId →
      env.getPage true = Except.error () →
      ((∀ rm rawUrl, env.getPage false = Except.ok rm →
        getRawSourceUrl rm blockId = some rawUrl → rawUrl ≠ "" →
        isAllowedHost rawUrl = true →
        notionFileHandler req env = ⟨HResp.redirect 302 rawUrl false, [true, false]⟩) ∧
       (∀ rm, env.getPage false = Except.ok rm →
        (getRawSourceUrl rm blockId = none ∨ getRawSourceUrl rm blockId = some "") →
        notionFileHandler req env =
          ⟨HResp.json 404 "File URL not found for block", [true, false]⟩) ∧
       (env.getPage false = Except.error () →
        notionFileHandler req env =
          ⟨HResp.json 502 "Failed to fetch signed URL", [true, false]⟩)) := by
  intro req env blockId pageId hm hqb hqp hsig
  refine ⟨?_, ?_, ?_⟩
  · intro rm rawUrl hun hraw hne hallow
    simp [notionFileHandler, hm, hqb, hqp, hsig, hun, rawUrlFallback, hraw, hne, hallow]
  · intro rm hun hraw
    rcases hraw with hraw | hraw <;>
      simp [notionFileHandler, hm, hqb, hqp, hsig, hun, rawUrlFallback, hraw]
  · intro hun
    simp [notionFileHandler, hm, hqb, hqp, hsig, hun]

/-- An environment whose signed fetch throws and whose unsigned fetch yields
a raw source URL on an allowed host for block `b`. -/
def envC3 : NotionEnv :=
  ⟨fun signed =>
    if signed then Except.error ()
    else Except.ok ⟨none, [("b", "https://www.notion.so/raw.pdf")]⟩,
   fun _ => Except.error ()⟩

/-- Witness for C3: with `envC3` the handler redirects 302 to the raw URL
after exactly one unsigned retry. -/
theorem c3_signed_fetch_throw_fallback_witness :
    envC3.getPage true = Except.error () ∧
    getRawSourceUrl ⟨none, [("b", "https://www.notion.so/raw.pdf")]⟩ "b" =
      some "https://www.notion.so/raw.pdf" ∧
    isAllowedHost "https://www.notion.so/raw.pdf" = true ∧
    notionFileHandler ⟨"GET", some (QVal.str "b"), some (QVal.str "p")⟩ envC3 =
      ⟨HResp.redirect 302 "https://www.notion.so/raw.pdf" false, [true, false]⟩ :=
  ⟨rfl, rfl, by decide,
   (c3_signed_fetch_throw_fallback ⟨"GET", some (QVal.str "b"), some (QVal.str "p")⟩
      envC3 "b" "p" rfl rfl rfl rfl).1
     ⟨none, [("b", "https://www.notion.so/raw.pdf")]⟩ "https://www.notion.so/raw.pdf"
     rfl rfl (by decide) (by decide)⟩

/-- The condition under which `resolvePdfUrl` reaches its unsigned re-fetch:
the signed fetch threw, or it succeeded yielding neither a string signed URL
nor a truthy raw source URL. -/
def reachesUnsigned (env : NotionEnv) (blockId : String) : Prop :=
  env.getPage true = Except.error () ∨
    (∃ rm, env.getPage true = Except.ok rm ∧ signedUrlOf rm blockId = none ∧
      (getRawSourceUrl rm blockId = none ∨ getRawSourceUrl rm blockId = some ""))

/-- C7: the streaming proxy resolves its upstream URL in order — (a) the
fresh signed URL of the signed fetch, (b) else the raw source URL of that
same record map, (c) else the raw source URL of an unsigned re-fetch,
(d) else a not-found error — and every resolution error, as well as a
throwing upstream fetch, makes the handler respond 502. -/
theorem c7_resolution_order :
    ∀ (env : NotionEnv) (blockId : String),
      (∀ rm freshUrl, env.getPage true = Except.ok rm →
        signedUrlOf rm blockId = some freshUrl →
        resolvePdfUrl env blockId = (Except.ok freshUrl, [true])) ∧
      (∀ rm rawUrl, env.getPage true = Except.ok rm →
        signedUrlOf rm blockId = none →
        getRawSourceUrl rm blockId = some rawUrl → rawUrl ≠ "" →
        resolvePdfUrl env blockId = (Except.ok rawUrl, [true])) ∧
      (∀ rm2 rawUrl2, reachesUnsigned env blockId →
        env.getPage false = Except.ok rm2 →
        getRawSourceUrl rm2 blockId = some rawUrl2 → rawUrl2 ≠ "" →
        resolvePdfUrl env blockId = (Except.ok rawUrl2, [true, false])) ∧
      (∀ rm2, reachesUnsigned env blockId →
        env.getPage false = Except.ok rm2 →
        (getRawSourceUrl rm2 blockId = none ∨ getRawSourceUrl rm2 blockId = some "") →
        resolvePdfUrl env blockId = (Except.error ResolveErr.notFound, [true, false])) ∧
      (reachesUnsigned env blockId → env.getPage false = Except.error () →
        resolvePdfUrl env blockId = (Except.error ResolveErr.fetchFailed, [true, false])) ∧
      (∀ (req : Req) (b p : String) (err : ResolveErr) (log : List Bool),
        (req.method = "GET" ∨ req.method = "HEAD") →
        queryStr req.blockId = some b → queryStr req.pageId = some p →
        resolvePdfUrl env b = (Except.error err, log) →
        assetsPdfHandler req env = ⟨ProxyResp.json 502 "Failed to proxy PDF", log, []⟩) ∧
      (∀ (req : Req) (b p u : String) (log : List Bool),
        (req.method = "GET" ∨ req.method = "HEAD") →
        queryStr req.blockId = some b → queryStr req.pageId = some p →
        resolvePdfUrl env b = (Except.ok u, log) → isAllowedHost u = true →
        env.fetch u = Except.error () →
        assetsPdfHandler req env = ⟨ProxyResp.json 502 "Failed to proxy PDF", log, [u]⟩) := by
  intro env blockId
  have hmethod : ∀ (req : Req), req.method = "GET" ∨ req.method = "HEAD" →
      ¬(req.method ≠ "GET" ∧ req.method ≠ "HEAD") := by
    rintro req (h | h) ⟨h1, h2⟩
    · exact h1 h
    · exact h2 h
  refine ⟨?_, ?_, ?_, ?_, ?_, ?_, ?_⟩
  · intro rm freshUrl hsig hfresh
    simp [resolvePdfUrl, hsig, hfresh]
  · intro rm rawUrl hsig hfresh hraw hne
    simp [resolvePdfUrl, hsig, hfresh, hraw, hne]
  · intro rm2 rawUrl2 hreach hun hraw2 hne2
    rcases hreach with hsig | ⟨rm, hsig, hfresh, hraw⟩
    · simp [resolvePdfUrl, hsig, hun, hraw2, hne2]
    · rcases hraw with hraw | hraw <;>
        simp [resolvePdfUrl, hsig, hfresh, hraw, hun, hraw2, hne2]
  · intro rm2 hreach hun hraw2
    rcases hreach with hsig | ⟨rm, hsig, hfresh, hraw⟩ <;>
      rcases hraw2 with hraw2 | hraw2
    · simp [resolvePdfUrl, hsig, hun, hraw2]
    · simp [resolvePdfUrl, hsig, hun, hraw2]
    · rcases hraw with hraw | hraw <;>
        simp [resolvePdfUrl, hsig, hfresh, hraw, hun, hraw2]
    · rcases hraw with hraw | hraw <;>
        simp [resolvePdfUrl, hsig, hfresh, hraw, hun, hraw2]
  · intro hreach hun
    rcases hreach with hsig | ⟨rm, hsig, hfresh, hraw⟩
    · simp [resolvePdfUrl, hsig, hun]
    · rcases hraw with hraw | hraw <;>
        simp [resolvePdfUrl, hsig, hfresh, hraw, hun]
  · intro req b p err log hms hqb hqp hres
    simp [assetsPdfHandler, hmethod req hms, hqb, hqp, hres]
  · intro req b p u log hms hqb hqp hres hallow hfetch
    simp [assetsPdfHandler, hmethod req hms, hqb, hqp, hres, hallow, hfetch]

/-- An environment whose signed fetch yields a record with no usable URL and
whose unsigned fetch carries the raw source URL. -/
def envC7 : NotionEnv :=
  ⟨fun signed =>
    if signed then Except.ok ⟨some [], []⟩
    else Except.ok ⟨none, [("b", "https://s3.us-west-2.amazonaws.com/f.pdf")]⟩,
   fun _ => Except.ok ()⟩

/-- Witness for C7 at step (c): the signed fetch yields nothing for the
block, so the unsigned re-fetch's raw URL is resolved. -/
theorem c7_resolution_order_witness :
    reachesUnsigned envC7 "b" ∧
    resolvePdfUrl envC7 "b" =
      (Except.ok "https://s3.us-west-2.amazonaws.com/f.pdf", [true, false]) :=
  ⟨Or.inr ⟨⟨some [], []⟩, rfl, rfl, Or.inl rfl⟩,
   (c7_resolution_order envC7 "b").2.2.1
     ⟨none, [("b", "https://s3.us-west-2.amazonaws.com/f.pdf")]⟩
     "https://s3.us-west-2.amazonaws.com/f.pdf"
     (Or.inr ⟨⟨some [], []⟩, rfl, rfl, Or.inl rfl⟩) rfl rfl (by decide)⟩

/-- C2: both handlers check every resolved upstream URL against the host
allow-list before use.  Soundness: every 302 redirect of the redirect
handler and every upstream fetch of the proxy targets an allow-listed URL.
Fail-closed: at each resolution site, a URL failing the check yields a 400
response with no redirect and no upstream fetch (`fetchCalls = []`). -/
theorem c2_host_check_fail_closed :
    (∀ (req : Req) (env : NotionEnv) (c : Nat) (u : String) (cached : Bool),
      (notionFileHandler req env).resp = HResp.redirect c u cached →
      isAllowedHost u = true) ∧
    (∀ (req : Req) (env : NotionEnv) (u : String),
      (assetsPdfHandler req env).resp = ProxyResp.upstream u → isAllowedHost u = true) ∧
    (∀ (req : Req) (env : NotionEnv) (u : String),
      u ∈ (assetsPdfHandler req env).fetchCalls → isAllowedHost u = true) ∧
    (∀ (req : Req) (env : NotionEnv) (b p u : String) (log : List Bool),
      (req.method = "GET" ∨ req.method = "HEAD") →
      queryStr req.blockId = some b → queryStr req.pageId = some p →
      resolvePdfUrl env b = (Except.ok u, log) → isAllowedHost u = false →
      assetsPdfHandler req env = ⟨ProxyResp.json 400 "Unexpected file host", log, []⟩) ∧
    (∀ (req : Req) (env : NotionEnv) (b p u : String) (rm : PageRecord),
      req.method = "GET" → queryStr req.blockId = some b → queryStr req.pageId = some p →
      env.getPage true = Except.ok rm → signedUrlOf rm b = some u → u ≠ "" →
      isAllowedHost u = false →
      notionFileHandler req env = ⟨HResp.json 400 "Unexpected redirect target", [true]⟩) ∧
    (∀ (req : Req) (env : NotionEnv) (b p u : String) (rm : PageRecord),
      req.method = "GET" → queryStr req.blockId = some b → queryStr req.pageId = some p →
      env.getPage true = Except.ok rm →
      (signedUrlOf rm b = none ∨ signedUrlOf rm b = some "") →
      getRawSourceUrl rm b = some u → u ≠ "" → isAllowedHost u = false →
      notionFileHandler req env = ⟨HResp.json 400 "Unexpected redirect target", [true]⟩) ∧
    (∀ (req : Req) (env : NotionEnv) (b p u : String) (rm : PageRecord),
      req.method = "GET" → queryStr req.blockId = some b → queryStr req.pageId = some p →
      env.getPage true = Except.error () → env.getPage false = Except.ok rm →
      getRawSourceUrl rm b = some u → u ≠ "" → isAllowedHost u = false →
      notionFileHandler req env =
        ⟨HResp.json 400 "Unexpected redirect target", [true, false]⟩) := by
  refine ⟨?_, ?_, ?_, ?_, ?_, ?_, ?_⟩
  · intro req env c u cached h
    unfold notionFileHandler rawUrlFallback at h
    repeat' split at h
    all_goals simp_all
  · intro req env u h
    unfold assetsPdfHandler at h
    repeat' split at h
    all_goals simp_all
  · intro req env u h
    unfold assetsPdfHandler at h
    repeat' split at h
    all_goals simp_all
  · intro req env b p u log hms hqb hqp hres hallow
    have hm : ¬(req.method ≠ "GET" ∧ req.method ≠ "HEAD") := by
      rcases hms with h | h
      · exact fun hc => hc.1 h
      · exact fun hc => hc.2 h
    simp [assetsPdfHandler, hm, hqb, hqp, hres, hallow]
  · intro req env b p u rm hm hqb hqp hsig hfresh hne hallow
    simp [notionFileHandler, hm, hqb, hqp, hsig, hfresh, hne, hallow]
  · intro req env b p u rm hm hqb hqp hsig hfresh hraw hne hallow
    rcases hfresh with hfresh | hfresh <;>
      simp [notionFileHandler, hm, hqb, hqp, hsig, hfresh, rawUrlFallback, hraw, hne, hallow]
  · intro req env b p u rm hm hqb hqp hsig hun hraw hne hallow
    simp [notionFileHandler, hm, hqb, hqp, hsig, hun, rawUrlFallback, hraw, hne, hallow]

/-- An environment that resolves block `b` to a URL on a host outside the
allow-list. -/
def envC2 : NotionEnv :=
  ⟨fun _ => Except.ok ⟨some [("b", "https://evil.example.com/a")], []⟩,
   fun _ => Except.ok ()⟩

/-- Witness for C2: a resolved URL on `evil.example.com` makes the proxy
answer 400 with no upstream fetch. -/
theorem c2_host_check_fail_closed_witness :
    resolvePdfUrl envC2 "b" = (Except.ok "https://evil.example.com/a", [true]) ∧
    isAllowedHost "https://evil.example.com/a" = false ∧
    assetsPdfHandler ⟨"GET", some (QVal.str "b"), some (QVal.str "p")⟩ envC2 =
      ⟨ProxyResp.json 400 "Unexpected file host", [true], []⟩ :=
  ⟨rfl, by decide,
   c2_host_check_fail_closed.2.2.2.1 ⟨"GET", some (QVal.str "b"), some (QVal.str "p")⟩
     envC2 "b" "p" "https://evil.example.com/a" [true] (Or.inl rfl) rfl rfl rfl (by decide)⟩

/-- Witness for C1 at a concrete allow-listed URL. -/
theorem c1_classifier_contract_witness :
    isAllowedHost "https://notion.so/page" = true ∧
    (∃ h, parseHostname "https://notion.so/page" = some h ∧
      specAllowedHostname h = true) :=
  ⟨by decide, (c1_classifier_contract.1 "https://notion.so/page").mp (by decide)⟩
